import Mathlib

/-!
# Shallow embedding of the `nibeudp` protocol codec

Definitions translated from `src/nibeudp/__init__.py`.  Bytes are modelled as
natural numbers, byte strings as `List Nat`, Python `dict[int, int]` as an
association list with Python's insertion semantics (update in place, append
for a fresh key), and fallible code as `Except PyErr`.
-/

/-- Python exceptions observable from the codec: `ParseError` (the library's
own error type, with the data its message carries), plus the built-in
exceptions the code can raise: `IndexError` (subscripting a too-short
`bytes`), `TypeError` (calling a function with the wrong number of
arguments), and `UnicodeDecodeError` (`bytes.decode("ascii")` on a byte
≥ 0x80). -/
inductive ParseErr where
  | emptyPacket : ParseErr
  | invalidLength (data : List Nat) : ParseErr
  | invalidChecksum (computed expected : Nat) : ParseErr
  | lengthNot (expected got : Nat) : ParseErr
  | lengthNotMultiple4 (got : Nat) : ParseErr
  deriving Repr, DecidableEq

inductive PyErr where
  | parseError (k : ParseErr) : PyErr
  | indexError : PyErr
  | typeError : PyErr
  | unicodeDecodeError : PyErr
  deriving Repr, DecidableEq

/-- The `Command` class hierarchy: one constructor per `@dataclass` subclass
of `Command` in the source.  `ResponseData.parameters` (a Python dict) is an
association list in insertion order. -/
inductive Command where
  | unknown (command : Nat) (data : List Nat) : Command
  | responseWrite (register : Nat) : Command
  | responseRead (register : Nat) (value : Nat) : Command
  | responseData (parameters : List (Nat × Nat)) : Command
  | responseRmu (data : List Nat) : Command
  | requestReadNull : Command
  | requestRead (register : Nat) : Command
  | requestWriteNull : Command
  | requestWrite (register : Nat) (value : Nat) : Command
  | responseProduct (unknownBytes : List Nat) (product : List Nat) : Command
  deriving Repr, DecidableEq

/-- The class-level `command` kind byte of each `Command` subclass
(`ClassVar[int]` in the source; the stored field for `CommandUnknown`). -/
def Command.commandTag : Command → Nat
  | .unknown c _ => c
  | .responseWrite _ => 0x6C
  | .responseRead _ _ => 0x6A
  | .responseData _ => 0x68
  | .responseRmu _ => 0x62
  | .requestReadNull => 0x69
  | .requestRead _ => 0x69
  | .requestWriteNull => 0x6B
  | .requestWrite _ _ => 0x6B
  | .responseProduct _ _ => 0x6D

/-- `n.to_bytes(2, "little")` for `n < 2^16`. -/
def bytes2LE (n : Nat) : List Nat := [n % 256, n / 256 % 256]

/-- `n.to_bytes(4, "little")` for `n < 2^32`. -/
def bytes4LE (n : Nat) : List Nat :=
  [n % 256, n / 256 % 256, n / 65536 % 256, n / 16777216 % 256]

/-- `int.from_bytes(payload, "little")`. -/
def fromBytesLE (l : List Nat) : Nat := l.foldr (fun b acc => b + 256 * acc) 0

/-- `Command.to_bytes` with each subclass override.  `ResponseRmu`,
`RequestReadNull`, `RequestWriteNull` and `ResponseProduct` define no
override, so they inherit the base `Command.to_bytes`, which returns
`b""`. -/
def Command.to_bytes : Command → List Nat
  | .unknown _ d => d
  | .responseWrite r => bytes2LE r
  | .responseRead r v => bytes2LE r ++ bytes4LE v
  | .responseData ps => (ps.map (fun p => bytes2LE p.1 ++ bytes2LE p.2)).flatten
  | .responseRmu _ => []
  | .requestReadNull => []
  | .requestRead r => bytes2LE r
  | .requestWriteNull => []
  | .requestWrite r v => bytes2LE r ++ bytes4LE v
  | .responseProduct _ _ => []

/-- Python dict insertion `m[k] = v`: update in place if the key exists,
append otherwise. -/
def dictInsert (m : List (Nat × Nat)) (k v : Nat) : List (Nat × Nat) :=
  if (m.map Prod.fst).contains k then
    m.map (fun p => if p.1 = k then (k, v) else p)
  else m ++ [(k, v)]

/-- `ResponseWrite.from_bytes`. -/
def ResponseWrite.from_bytes (payload : List Nat) : Except PyErr Command :=
  if payload.length ≠ 2 then .error (.parseError (.lengthNot 2 payload.length))
  else .ok (.responseWrite (fromBytesLE payload))

/-- `ResponseRead.from_bytes`. -/
def ResponseRead.from_bytes (payload : List Nat) : Except PyErr Command :=
  if payload.length ≠ 6 then .error (.parseError (.lengthNot 6 payload.length))
  else .ok (.responseRead (fromBytesLE (payload.take 2))
      (fromBytesLE ((payload.drop 2).take 4)))

/-- The loop of `ResponseData.from_bytes`: `for idx in range(0, len(payload), 4)`
reads `payload[idx:idx+2]` as the register and `payload[idx+2:idx+4]` as the
value; it is only run on payloads whose length is a multiple of 4, so it is
written here as recursion on 4-byte groups. -/
def responseDataLoop : List Nat → List (Nat × Nat) → List (Nat × Nat)
  | a :: b :: c :: d :: rest, m =>
    if a + 256 * b = 0xFFFF then responseDataLoop rest m
    else responseDataLoop rest (dictInsert m (a + 256 * b) (c + 256 * d))
  | _, m => m

/-- `ResponseData.from_bytes`. -/
def ResponseData.from_bytes (payload : List Nat) : Except PyErr Command :=
  if payload.length % 4 ≠ 0 then
    .error (.parseError (.lengthNotMultiple4 payload.length))
  else .ok (.responseData (responseDataLoop payload []))

/-- `ResponseRmu.from_bytes`. -/
def ResponseRmu.from_bytes (payload : List Nat) : Except PyErr Command :=
  .ok (.responseRmu payload)

/-- `RequestRead.from_bytes`. -/
def RequestRead.from_bytes (payload : List Nat) : Except PyErr Command :=
  if payload.length ≠ 2 then .error (.parseError (.lengthNot 2 payload.length))
  else .ok (.requestRead (fromBytesLE payload))

/-- `RequestWrite.from_bytes`. -/
def RequestWrite.from_bytes (payload : List Nat) : Except PyErr Command :=
  if payload.length ≠ 6 then .error (.parseError (.lengthNot 6 payload.length))
  else .ok (.requestWrite (fromBytesLE (payload.take 2))
      (fromBytesLE ((payload.drop 2).take 4)))

/-- `ResponseProduct.from_bytes`: `payload[0:3]` and
`payload[3:].decode("ascii")`, the latter raising `UnicodeDecodeError` on any
byte ≥ 0x80. -/
def ResponseProduct.from_bytes (payload : List Nat) : Except PyErr Command :=
  if (payload.drop 3).all (fun b => b < 128) then
    .ok (.responseProduct (payload.take 3) (payload.drop 3))
  else .error .unicodeDecodeError

/-- `parse_payload`: dispatch on the command kind byte, in source order.
A non-empty payload (`and payload` in Python tests truthiness, i.e.
non-emptiness) selects the register-carrying request variants. -/
def parse_payload (command : Nat) (payload : List Nat) : Except PyErr Command :=
  if command = 0x6A then ResponseRead.from_bytes payload
  else if command = 0x6C then ResponseWrite.from_bytes payload
  else if command = 0x68 then ResponseData.from_bytes payload
  else if command = 0x62 then ResponseRmu.from_bytes payload
  else if command = 0x69 ∧ payload ≠ [] then RequestRead.from_bytes payload
  else if command = 0x69 then .ok .requestReadNull
  else if command = 0x6B ∧ payload ≠ [] then RequestWrite.from_bytes payload
  else if command = 0x6B then .ok .requestWriteNull
  else if command = 0x6D then ResponseProduct.from_bytes payload
  else .ok (.unknown command payload)

/-- Body of the `unescape` generator after the first byte was yielded: a byte
equal to `key` is consumed and the byte after it is yielded; a stream ending
right on a `key` byte terminates silently. -/
def unescapeBody (key : Nat) : List Nat → List Nat
  | [] => []
  | v :: rest =>
    if v = key then
      match rest with
      | [] => []
      | w :: rest2 => w :: unescapeBody key rest2
    else v :: unescapeBody key rest

/-- `unescape(data, key)`: the first byte is passed through unchanged, the
rest is un-stuffed. -/
def unescape (data : List Nat) (key : Nat) : List Nat :=
  match data with
  | [] => []
  | b :: rest => b :: unescapeBody key rest

/-- Body of the `escape` generator after the first byte: a byte equal to
`key` is emitted twice. -/
def escapeBody (key : Nat) : List Nat → List Nat
  | [] => []
  | v :: rest =>
    if v = key then key :: v :: escapeBody key rest
    else v :: escapeBody key rest

/-- `escape(data, key)`: the first byte is passed through unchanged, the
rest is stuffed. -/
def escape (data : List Nat) (key : Nat) : List Nat :=
  match data with
  | [] => []
  | b :: rest => b :: escapeBody key rest

/-- `calculate_checksum(data, key)`: XOR-fold all bytes; if the result equals
`key`, substitute the nibble-swapped `key` instead. -/
def calculate_checksum (data : List Nat) (key : Nat) : Nat :=
  let result := data.foldl (fun r v => r ^^^ v) 0
  if result = key then ((key <<< 4) ||| (key >>> 4)) &&& 0xFF
  else result

deriving instance DecidableEq for Except

/-- The `Message` class hierarchy. -/
inductive Message where
  | master (address : Nat) (command : Command) : Message
  | slave (command : Command) : Message
  | ack : Message
  | nak : Message
  | unknownMsg (start : Nat) (data : List Nat) : Message
  deriving Repr, DecidableEq

/-- `MessageSlave.to_bytes`: start byte, command kind byte, payload length,
payload, then the checksum over everything so far with key `0xC0`.  The
source applies no byte-stuffing here. -/
def slaveToBytes (c : Command) : List Nat :=
  let payload := c.to_bytes
  let data := 0xC0 :: c.commandTag :: payload.length :: payload
  data ++ [calculate_checksum data 0xC0]

/-- `MessageMaster.to_bytes`: the source (line 188) runs
`data.append(calculate_checksum(data[2:]), self.start)`, which evaluates
`calculate_checksum(data[2:])` with its required `key` argument missing and
so raises `TypeError` on every call (and `bytearray.append` with two
arguments would, too); the method never returns bytes. -/
def masterToBytes (address : Nat) (c : Command) : Except PyErr (List Nat) :=
  let payload := c.to_bytes
  let _data := 0x5C :: 0x00 :: address :: c.commandTag :: payload.length :: payload
  .error .typeError

/-- `parse(data)`.  Indexing a too-short unescaped buffer (`data[4]` for a
master frame, `data[2]` for a slave frame) raises `IndexError` in Python,
modelled by the explicit length guards. -/
def parse (data : List Nat) : Except PyErr Message :=
  match data with
  | [] => .error (.parseError .emptyPacket)
  | b0 :: rest =>
    if b0 = 0x5C then
      let d := unescape (b0 :: rest) 0x5C
      if d.length < 5 then .error .indexError
      else
        let dataLen := d.getD 4 0
        if d.length < dataLen + 6 then .error (.parseError (.invalidLength d))
        else
          let payload := (d.drop 5).take dataLen
          let dataCommand := d.getD 3 0
          let dataChecksum := d.getD (5 + dataLen) 0
          let checksum := calculate_checksum ((d.drop 2).take (3 + dataLen)) (d.getD 0 0)
          if checksum ≠ dataChecksum then
            .error (.parseError (.invalidChecksum checksum dataChecksum))
          else (parse_payload dataCommand payload).map (.master (d.getD 2 0))
    else if b0 = 0xC0 then
      let d := unescape (b0 :: rest) 0xC0
      if d.length < 3 then .error .indexError
      else
        let dataLen := d.getD 2 0
        if d.length < dataLen + 4 then .error (.parseError (.invalidLength d))
        else
          let payload := (d.drop 3).take dataLen
          let dataCommand := d.getD 1 0
          let dataChecksum := d.getD (3 + dataLen) 0
          let checksum := calculate_checksum (d.take (3 + dataLen)) (d.getD 0 0)
          if checksum ≠ dataChecksum then
            .error (.parseError (.invalidChecksum checksum dataChecksum))
          else (parse_payload dataCommand payload).map .slave
    else if b0 = 0x06 then .ok .ack
    else if b0 = 0x15 then .ok .nak
    else .ok (.unknownMsg b0 rest)

/-- The observable state of a `ResponseFuture`: its `response` attribute
(unassigned until `set` is called) and whether its `anyio.Event` is set. -/
structure ResponseFutureState where
  response : Option Command
  eventSet : Bool
  deriving Repr, DecidableEq

/-- A fresh `ResponseFuture()`: event unset, `response` unassigned. -/
def ResponseFuture.initial : ResponseFutureState := ⟨none, false⟩

/-- `ResponseFuture.set(response)`: store the reply and set the event; the
awaiting `get()` resumes once `eventSet` is true. -/
def ResponseFuture.set (_st : ResponseFutureState) (c : Command) : ResponseFutureState :=
  ⟨some c, true⟩

/-- The transient listener registered by `Controller.read(register)`: ignore
any reply that is not a `ResponseRead` or whose register differs, otherwise
fulfil the result slot. -/
def read_listener (register : Nat) (st : ResponseFutureState) (reply : Command) :
    ResponseFutureState :=
  match reply with
  | .responseRead r v =>
    if r ≠ register then st else ResponseFuture.set st (.responseRead r v)
  | _ => st

/-- The transient listener registered by `Controller.write(register, value)`:
ignore any reply that is not a `ResponseWrite` or whose register differs. -/
def write_listener (register : Nat) (st : ResponseFutureState) (reply : Command) :
    ResponseFutureState :=
  match reply with
  | .responseWrite r =>
    if r ≠ register then st else ResponseFuture.set st (.responseWrite r)
  | _ => st

example : parse [0x5C, 0x00, 0x20, 0x6B, 0x00, 0x4B] =
    .ok (.master 0x20 .requestWriteNull) := by decide

example : parse [0xC0, 0x69, 0x02, 0x34, 0x12, 0x8D] =
    .ok (.slave (.requestRead 0x1234)) := by decide

example : slaveToBytes (.requestRead 0x1234) =
    [0xC0, 0x69, 0x02, 0x34, 0x12, 0x8D] := by decide

example : slaveToBytes (.requestWrite 12345 987654) =
    [0xC0, 0x6B, 0x06, 0x39, 0x30, 0x06, 0x12, 0x0F, 0x00, 0xBF] := by decide

/-- Spec-side predicate: is this command a read-response for `register`?
(The condition under which `Controller.read`'s listener fulfils its slot.) -/
def isReadResponseFor (register : Nat) : Command → Bool
  | .responseRead r _ => r = register
  | _ => false

/-- Spec-side predicate: is this command a write-response for `register`? -/
def isWriteResponseFor (register : Nat) : Command → Bool
  | .responseWrite r => r = register
  | _ => false

/-- Spec-side description of the bulk payload layout: consecutive 4-byte
groups, each a little-endian 2-byte register followed by a little-endian
2-byte value. -/
def groups4 : List Nat → List (Nat × Nat)
  | a :: b :: c :: d :: rest => (a + 256 * b, c + 256 * d) :: groups4 rest
  | _ => []

/-! ## Helper lemmas -/

theorem getD_append_lt (l l' : List Nat) (n : Nat) (h : n < l.length) :
    (l ++ l').getD n 0 = l.getD n 0 := by
  simp [List.getD_eq_getElem?_getD, List.getElem?_append_left h]

theorem getD_concat_length (l : List Nat) (a : Nat) :
    (l ++ [a]).getD l.length 0 = a := by
  simp [List.getD_eq_getElem?_getD, List.getElem?_append_right (Nat.le_refl _)]

theorem fromBytesLE_bytes2LE (r : Nat) (h : r < 65536) :
    fromBytesLE (bytes2LE r) = r := by
  simp [fromBytesLE, bytes2LE]
  omega

theorem fromBytesLE_bytes4LE (v : Nat) (h : v < 4294967296) :
    fromBytesLE (bytes4LE v) = v := by
  simp [fromBytesLE, bytes4LE]
  omega

theorem unescapeBody_cons_ne (key v : Nat) (rest : List Nat) (h : v ≠ key) :
    unescapeBody key (v :: rest) = v :: unescapeBody key rest := by
  cases rest with
  | nil => rw [unescapeBody.eq_2, if_neg h]
  | cons w r => rw [unescapeBody.eq_3, if_neg h]

theorem unescapeBody_key_nil (key : Nat) : unescapeBody key [key] = [] := by
  rw [unescapeBody.eq_2, if_pos rfl]

theorem unescapeBody_key_cons (key w : Nat) (rest2 : List Nat) :
    unescapeBody key (key :: w :: rest2) = w :: unescapeBody key rest2 := by
  rw [unescapeBody.eq_3, if_pos rfl]

theorem unescapeBody_escapeBody (key : Nat) (l : List Nat) :
    unescapeBody key (escapeBody key l) = l := by
  induction l with
  | nil => rfl
  | cons v rest ih =>
    by_cases h : v = key
    · rw [escapeBody, if_pos h, h, unescapeBody_key_cons, ih]
    · rw [escapeBody, if_neg h, unescapeBody_cons_ne key v _ h, ih]

theorem unescapeBody_of_no_key (key : Nat) (l : List Nat) (h : ∀ x ∈ l, x ≠ key) :
    unescapeBody key l = l := by
  induction l with
  | nil => rfl
  | cons v rest ih =>
    have hv : v ≠ key := h v (by simp)
    rw [unescapeBody_cons_ne key v rest hv, ih (fun x hx => h x (by simp [hx]))]

theorem unescapeBody_concat_key (key : Nat) (l : List Nat) (h : ∀ x ∈ l, x ≠ key) :
    unescapeBody key (l ++ [key]) = l := by
  induction l with
  | nil => simpa using unescapeBody_key_nil key
  | cons v rest ih =>
    have hv : v ≠ key := h v (by simp)
    rw [List.cons_append, unescapeBody_cons_ne key v _ hv,
      ih (fun x hx => h x (by simp [hx]))]

theorem unescapeBody_append (key : Nat) : ∀ (l e : List Nat),
    ∃ t, unescapeBody key (l ++ e) = unescapeBody key l ++ t
  | [], e => ⟨unescapeBody key e, by simp [unescapeBody]⟩
  | [v], e => by
    by_cases h : v = key
    · refine ⟨unescapeBody key (v :: e), ?_⟩
      rw [h, unescapeBody_key_nil]
      simp
    · refine ⟨unescapeBody key e, ?_⟩
      rw [List.cons_append, List.nil_append, unescapeBody_cons_ne key v e h,
        unescapeBody_cons_ne key v [] h]
      simp [unescapeBody]
  | v :: w :: rest, e => by
    by_cases h : v = key
    · obtain ⟨t, ht⟩ := unescapeBody_append key rest e
      refine ⟨t, ?_⟩
      rw [h, List.cons_append, List.cons_append, unescapeBody_key_cons,
        unescapeBody_key_cons, ht, List.cons_append]
    · obtain ⟨t, ht⟩ := unescapeBody_append key (w :: rest) e
      refine ⟨t, ?_⟩
      rw [List.cons_append, unescapeBody_cons_ne key v _ h,
        unescapeBody_cons_ne key v _ h, ht, List.cons_append]

theorem unescape_append (b : Nat) (rest e : List Nat) (key : Nat) :
    ∃ t, unescape ((b :: rest) ++ e) key = unescape (b :: rest) key ++ t := by
  obtain ⟨t, ht⟩ := unescapeBody_append key rest e
  exact ⟨t, by simp [unescape, ht]⟩

theorem calculate_checksum_eq (data : List Nat) (key : Nat) :
    calculate_checksum data key =
      if data.foldl (fun r v => r ^^^ v) 0 = key
      then ((key <<< 4) ||| (key >>> 4)) &&& 0xFF
      else data.foldl (fun r v => r ^^^ v) 0 := rfl

theorem calculate_checksum_ne_C0 (l : List Nat) : calculate_checksum l 0xC0 ≠ 0xC0 := by
  rw [calculate_checksum_eq]
  split
  · decide
  · assumption

theorem calculate_checksum_ne_5C (l : List Nat) : calculate_checksum l 0x5C ≠ 0x5C := by
  rw [calculate_checksum_eq]
  split
  · decide
  · assumption

theorem read_listener_no_match (register : Nat) (st : ResponseFutureState) (reply : Command)
    (h : isReadResponseFor register reply = false) : read_listener register st reply = st := by
  cases reply <;>
    first
      | rfl
      | (simp only [isReadResponseFor, decide_eq_false_iff_not] at h
         simp [read_listener, h])

theorem write_listener_no_match (register : Nat) (st : ResponseFutureState) (reply : Command)
    (h : isWriteResponseFor register reply = false) : write_listener register st reply = st := by
  cases reply <;>
    first
      | rfl
      | (simp only [isWriteResponseFor, decide_eq_false_iff_not] at h
         simp [write_listener, h])

theorem foldl_read_listener_eq (register : Nat) (cmds : List Command)
    (st : ResponseFutureState) (h : ∀ c ∈ cmds, isReadResponseFor register c = false) :
    cmds.foldl (read_listener register) st = st := by
  induction cmds generalizing st with
  | nil => rfl
  | cons c rest ih =>
    rw [List.foldl_cons, read_listener_no_match register st c (h c (by simp)),
      ih st (fun x hx => h x (by simp [hx]))]

theorem foldl_write_listener_eq (register : Nat) (cmds : List Command)
    (st : ResponseFutureState) (h : ∀ c ∈ cmds, isWriteResponseFor register c = false) :
    cmds.foldl (write_listener register) st = st := by
  induction cmds generalizing st with
  | nil => rfl
  | cons c rest ih =>
    rw [List.foldl_cons, write_listener_no_match register st c (h c (by simp)),
      ih st (fun x hx => h x (by simp [hx]))]

/-! ## Claim theorems -/

/-- C2 (code bug): the master frame encode/parse round trip fails because
`MessageMaster.to_bytes` always raises `TypeError`: the source (line 188)
runs `data.append(calculate_checksum(data[2:]), self.start)`, calling
`calculate_checksum` without its required `key` argument (and
`bytearray.append` with two arguments), so no master frame is ever
produced.  Evaluated at the failing input `MessageMaster(0x20,
RequestReadNull())` and in general. -/
theorem c2_master_encode_raises :
    masterToBytes 0x20 Command.requestReadNull = .error .typeError ∧
    ∀ (address : Nat) (c : Command), masterToBytes address c = .error .typeError :=
  ⟨rfl, fun _ _ => rfl⟩

/-- C1 counterexample: the command-level round trip fails for the vendor
blob variant: `ResponseRmu` defines no `to_bytes`, so it inherits the base
`Command.to_bytes` returning `b""`, and decoding the encoding of
`ResponseRmu(b"\x01")` yields `ResponseRmu(b"")`, not the original. -/
theorem c1_rmu_roundtrip_fails :
    parse_payload (Command.responseRmu [1]).commandTag (Command.responseRmu [1]).to_bytes =
      .ok (.responseRmu []) ∧
    Command.responseRmu [] ≠ Command.responseRmu [1] := by decide

/-- C3 counterexample: `MessageSlave.to_bytes` applies no byte-stuffing.
For `RequestRead(0x12C0)` the payload contains a literal `0xC0` byte; the
encoder emits it once (not doubled), and parsing the encoder's own output
does not return the original message (the un-stuffing step eats the byte
and the frame fails its length check). -/
theorem c3_stuffing_fails :
    slaveToBytes (.requestRead 0x12C0) = [0xC0, 0x69, 0x02, 0xC0, 0x12, 0x79] ∧
    parse (slaveToBytes (.requestRead 0x12C0)) ≠ .ok (.slave (.requestRead 0x12C0)) := by
  decide

/-- C6 counterexample: `parse` can raise an exception that is not a
`ParseError`: on the one-byte input `5C` it evaluates `data[4]` before any
length check and raises `IndexError`. -/
theorem c6_short_header_index_error :
    parse [0x5C] = .error .indexError ∧
    ∀ k, PyErr.indexError ≠ PyErr.parseError k :=
  ⟨by decide, fun _ h => PyErr.noConfusion h⟩

/-- C4: `calculate_checksum` XOR-folds all bytes, except that when the fold
equals the key it returns the nibble-swapped key; and a slave frame whose
raw XOR equals the start marker `0xC0` (here `RequestRead(0x6B)`) encodes
with the substitute checksum byte `0x0C` and parses back to the same
command. -/
theorem c4_checksum_collision :
    (∀ (data : List Nat) (key : Nat), data.foldl (fun r v => r ^^^ v) 0 ≠ key →
        calculate_checksum data key = data.foldl (fun r v => r ^^^ v) 0) ∧
    (∀ (data : List Nat) (key : Nat), data.foldl (fun r v => r ^^^ v) 0 = key →
        calculate_checksum data key = ((key <<< 4) ||| (key >>> 4)) &&& 0xFF) ∧
    ([0xC0, 0x69, 0x02, 0x6B, 0x00].foldl (fun r v => r ^^^ v) 0 = 0xC0 ∧
     slaveToBytes (.requestRead 0x6B) = [0xC0, 0x69, 0x02, 0x6B, 0x00, 0x0C] ∧
     parse (slaveToBytes (.requestRead 0x6B)) = .ok (.slave (.requestRead 0x6B))) := by
  refine ⟨fun data key h => ?_, fun data key h => ?_, by decide⟩
  · rw [calculate_checksum_eq, if_neg h]
  · rw [calculate_checksum_eq, if_pos h]

/-- C4 witness: both branches of the checksum contract at concrete inputs. -/
theorem c4_checksum_collision_witness :
    calculate_checksum [1, 2] 0 = 3 ∧ calculate_checksum [0xC0] 0xC0 = 0x0C :=
  ⟨(c4_checksum_collision.1 [1, 2] 0 (by decide)).trans (by decide),
   (c4_checksum_collision.2.1 [0xC0] 0xC0 (by decide)).trans (by decide)⟩

/-- C5: `unescape` undoes `escape` for every byte sequence and key; both
transforms pass the first byte through unchanged; and a stream ending
exactly on a key byte terminates silently, dropping the dangling key. -/
theorem c5_escape_inverse :
    (∀ (data : List Nat) (key : Nat), unescape (escape data key) key = data) ∧
    (∀ (key b : Nat) (l : List Nat),
        (escape (b :: l) key).head? = some b ∧ (unescape (b :: l) key).head? = some b) ∧
    (∀ (key b : Nat) (l : List Nat), (∀ x ∈ l, x ≠ key) →
        unescape (b :: (l ++ [key])) key = b :: l) := by
  refine ⟨fun data key => ?_, fun key b l => ⟨rfl, rfl⟩, fun key b l h => ?_⟩
  · cases data with
    | nil => rfl
    | cons v rest => simp [escape, unescape, unescapeBody_escapeBody]
  · simp [unescape, unescapeBody_concat_key key l h]

/-- C5 witness: the inverse law and the silent-termination rule at concrete
inputs. -/
theorem c5_escape_inverse_witness :
    unescape (escape [0xC0, 1, 0xC0, 2] 0xC0) 0xC0 = [0xC0, 1, 0xC0, 2] ∧
    unescape [7, 1, 2, 0xC0] 0xC0 = [7, 1, 2] :=
  ⟨c5_escape_inverse.1 [0xC0, 1, 0xC0, 2] 0xC0,
   c5_escape_inverse.2.2 0xC0 7 [1, 2] (by decide)⟩

/-- C9: the transient listener of `Controller.read(register)` leaves the
pending state untouched on any command that is not a read-response for
exactly that register (including over a whole stream of such commands the
event stays unset, so the call stays awaiting), and fulfils the slot on a
matching read-response; `Controller.write`'s listener is symmetric for
write-responses. -/
theorem c9_no_crosstalk :
    (∀ (register : Nat) (st : ResponseFutureState) (reply : Command),
        isReadResponseFor register reply = false → read_listener register st reply = st) ∧
    (∀ (register : Nat) (st : ResponseFutureState) (v : Nat),
        read_listener register st (.responseRead register v) =
          ResponseFuture.set st (.responseRead register v)) ∧
    (∀ (register : Nat) (cmds : List Command),
        (∀ c ∈ cmds, isReadResponseFor register c = false) →
        (cmds.foldl (read_listener register) ResponseFuture.initial).eventSet = false) ∧
    (∀ (register : Nat) (st : ResponseFutureState) (reply : Command),
        isWriteResponseFor register reply = false → write_listener register st reply = st) ∧
    (∀ (register : Nat) (st : ResponseFutureState),
        write_listener register st (.responseWrite register) =
          ResponseFuture.set st (.responseWrite register)) ∧
    (∀ (register : Nat) (cmds : List Command),
        (∀ c ∈ cmds, isWriteResponseFor register c = false) →
        (cmds.foldl (write_listener register) ResponseFuture.initial).eventSet = false) := by
  refine ⟨read_listener_no_match, fun register st v => by simp [read_listener],
    fun register cmds h => ?_, write_listener_no_match,
    fun register st => by simp [write_listener], fun register cmds h => ?_⟩
  · rw [foldl_read_listener_eq register cmds ResponseFuture.initial h]
    rfl
  · rw [foldl_write_listener_eq register cmds ResponseFuture.initial h]
    rfl

/-- C9 witness: a reply for another register and a stream of unrelated
commands resolve nothing; applied at concrete inputs. -/
theorem c9_no_crosstalk_witness :
    read_listener 1 ResponseFuture.initial (.responseRead 2 7) = ResponseFuture.initial ∧
    (([Command.responseRead 2 7, Command.responseWrite 1,
        Command.requestReadNull].foldl (read_listener 1))
      ResponseFuture.initial).eventSet = false ∧
    write_listener 5 ResponseFuture.initial (.responseWrite 4) = ResponseFuture.initial ∧
    (([Command.responseWrite 4, Command.responseRead 5 9].foldl (write_listener 5))
      ResponseFuture.initial).eventSet = false :=
  ⟨c9_no_crosstalk.1 1 ResponseFuture.initial (Command.responseRead 2 7) (by decide),
   c9_no_crosstalk.2.2.1 1 _ (by decide),
   c9_no_crosstalk.2.2.2.1 5 ResponseFuture.initial (Command.responseWrite 4) (by decide),
   c9_no_crosstalk.2.2.2.2.2 5 _ (by decide)⟩

theorem dictInsert_not_mem (m : List (Nat × Nat)) (k v : Nat)
    (h : k ∉ m.map Prod.fst) : dictInsert m k v = m ++ [(k, v)] := by
  rw [dictInsert, if_neg (by simpa using h)]

theorem responseDataLoop_spec : ∀ (p : List Nat) (m : List (Nat × Nat)),
    responseDataLoop p m = ((groups4 p).filter (fun q => q.1 ≠ 0xFFFF)).foldl
      (fun acc q => dictInsert acc q.1 q.2) m
  | [], _ => rfl
  | [_], _ => rfl
  | [_, _], _ => rfl
  | [_, _, _], _ => rfl
  | a :: b :: c :: d :: rest, m => by
    rw [responseDataLoop.eq_1, groups4.eq_1]
    by_cases h : a + 256 * b = 0xFFFF
    · rw [if_pos h, responseDataLoop_spec rest m]
      simp [List.filter_cons, h]
    · rw [if_neg h, responseDataLoop_spec rest (dictInsert m (a + 256 * b) (c + 256 * d))]
      simp [List.filter_cons, h]

theorem encodeData_length (ps : List (Nat × Nat)) :
    ((ps.map fun p => bytes2LE p.1 ++ bytes2LE p.2).flatten).length = 4 * ps.length := by
  induction ps with
  | nil => rfl
  | cons p rest ih =>
    simp only [List.map_cons, List.flatten_cons, List.length_append, List.length_cons, ih]
    simp [bytes2LE]
    omega

theorem responseDataLoop_encode : ∀ (ps m : List (Nat × Nat)),
    (∀ p ∈ ps, p.1 < 65536 ∧ p.2 < 65536 ∧ p.1 ≠ 0xFFFF) →
    (∀ p ∈ ps, p.1 ∉ m.map Prod.fst) →
    (ps.map Prod.fst).Nodup →
    responseDataLoop ((ps.map fun p => bytes2LE p.1 ++ bytes2LE p.2).flatten) m = m ++ ps
  | [], m, _, _, _ => by simp [responseDataLoop]
  | (r, v) :: rest, m, hb, hm, hnd => by
    have hr : r < 65536 := (hb (r, v) (by simp)).1
    have hv : v < 65536 := (hb (r, v) (by simp)).2.1
    have hrff : r ≠ 0xFFFF := (hb (r, v) (by simp)).2.2
    have hreg : r % 256 + 256 * (r / 256 % 256) = r := by omega
    have hval : v % 256 + 256 * (v / 256 % 256) = v := by omega
    have hknotin : r ∉ m.map Prod.fst := hm (r, v) (by simp)
    have hrrest : r ∉ rest.map Prod.fst := by
      have := hnd
      simp only [List.map_cons, List.nodup_cons] at this
      exact this.1
    rw [List.map_cons, List.flatten_cons]
    show responseDataLoop (r % 256 :: r / 256 % 256 :: v % 256 :: v / 256 % 256 ::
        (rest.map fun p => bytes2LE p.1 ++ bytes2LE p.2).flatten) m = m ++ (r, v) :: rest
    rw [responseDataLoop.eq_1, hreg, hval, if_neg hrff, dictInsert_not_mem m r v hknotin]
    rw [responseDataLoop_encode rest (m ++ [(r, v)])
      (fun p hp => hb p (by simp [hp]))
      (fun p hp => by
        simp only [List.map_append, List.map_cons, List.map_nil, List.mem_append,
          List.mem_singleton]
        rintro (hin | hin)
        · exact hm p (by simp [hp]) hin
        · exact hrrest (hin ▸ List.mem_map_of_mem Prod.fst hp))
      (by
        have := hnd
        simp only [List.map_cons, List.nodup_cons] at this
        exact this.2)]
    simp

/-- C7: decoding a bulk-data (kind 0x68) payload raises the length
`ParseError` exactly when the payload length is not a multiple of 4;
otherwise it splits the payload into consecutive 4-byte groups (little-endian
2-byte register, little-endian 2-byte value), drops every group whose
register is the `0xFFFF` sentinel, and inserts the remaining pairs in order
into the resulting map. -/
theorem c7_bulk_decode : ∀ payload : List Nat,
    (ResponseData.from_bytes payload =
        .error (.parseError (.lengthNotMultiple4 payload.length)) ↔
      payload.length % 4 ≠ 0) ∧
    ((∃ e, ResponseData.from_bytes payload = .error e) → payload.length % 4 ≠ 0) ∧
    (payload.length % 4 = 0 →
      ResponseData.from_bytes payload =
        .ok (.responseData (((groups4 payload).filter (fun q => q.1 ≠ 0xFFFF)).foldl
          (fun acc q => dictInsert acc q.1 q.2) []))) := by
  intro payload
  refine ⟨⟨fun he h => ?_, fun h => ?_⟩, fun he => ?_, fun h => ?_⟩
  · rw [ResponseData.from_bytes, if_neg (by simpa using h)] at he
    exact Except.noConfusion he
  · rw [ResponseData.from_bytes, if_pos (by simpa using h)]
  · by_contra h
    obtain ⟨e, he⟩ := he
    rw [ResponseData.from_bytes, if_neg (by simpa using h)] at he
    exact Except.noConfusion he
  · rw [ResponseData.from_bytes, if_neg (by simpa using h), responseDataLoop_spec]

/-- C7 witness: a payload with a `0xFFFF` sentinel group decodes to a map
omitting it, and a payload of length 3 raises the length error. -/
theorem c7_bulk_decode_witness :
    ResponseData.from_bytes [0xFF, 0xFF, 0, 0, 5, 0, 7, 0] =
      .ok (.responseData [(5, 7)]) ∧
    ResponseData.from_bytes [1, 2, 3] = .error (.parseError (.lengthNotMultiple4 3)) :=
  ⟨((c7_bulk_decode [0xFF, 0xFF, 0, 0, 5, 0, 7, 0]).2.2 (by decide)).trans (by decide),
   (c7_bulk_decode [1, 2, 3]).1.mpr (by decide)⟩

/-- C1 (amended): the command-level round trip
`parse_payload(c.command, c.to_bytes()) = c` holds for the read request,
write request, read response, write response, bulk data (registers and
values in 16-bit range, no `0xFFFF` register, no duplicate registers — the
dict invariant) and unknown (kind byte outside the recognized set)
variants; the vendor blob `ResponseRmu` has no encoder of its own
(`to_bytes` is the inherited default returning empty bytes), so decoding
its encoding always yields the empty blob, and the round trip holds for it
only when its data is empty. -/
theorem c1_roundtrip_amended :
    (∀ r : Nat, r < 65536 →
      parse_payload (Command.requestRead r).commandTag (Command.requestRead r).to_bytes =
        .ok (.requestRead r)) ∧
    (∀ r v : Nat, r < 65536 → v < 4294967296 →
      parse_payload (Command.requestWrite r v).commandTag
        (Command.requestWrite r v).to_bytes = .ok (.requestWrite r v)) ∧
    (∀ r v : Nat, r < 65536 → v < 4294967296 →
      parse_payload (Command.responseRead r v).commandTag
        (Command.responseRead r v).to_bytes = .ok (.responseRead r v)) ∧
    (∀ r : Nat, r < 65536 →
      parse_payload (Command.responseWrite r).commandTag
        (Command.responseWrite r).to_bytes = .ok (.responseWrite r)) ∧
    (∀ ps : List (Nat × Nat), (∀ p ∈ ps, p.1 < 65536 ∧ p.2 < 65536 ∧ p.1 ≠ 0xFFFF) →
      (ps.map Prod.fst).Nodup →
      parse_payload (Command.responseData ps).commandTag
        (Command.responseData ps).to_bytes = .ok (.responseData ps)) ∧
    (∀ d : List Nat,
      parse_payload (Command.responseRmu d).commandTag
        (Command.responseRmu d).to_bytes = .ok (.responseRmu [])) ∧
    (∀ (cmd : Nat) (d : List Nat),
      cmd ∉ ([0x6A, 0x6C, 0x68, 0x62, 0x69, 0x6B, 0x6D] : List Nat) →
      parse_payload (Command.unknown cmd d).commandTag
        (Command.unknown cmd d).to_bytes = .ok (.unknown cmd d)) := by
  refine ⟨fun r hr => ?_, fun r v hr hv => ?_, fun r v hr hv => ?_, fun r hr => ?_,
    fun ps hb hnd => ?_, fun d => ?_, fun cmd d h => ?_⟩
  · simp [parse_payload, Command.commandTag, Command.to_bytes, RequestRead.from_bytes,
      bytes2LE, fromBytesLE]
    omega
  · simp [parse_payload, Command.commandTag, Command.to_bytes, RequestWrite.from_bytes,
      bytes2LE, bytes4LE, fromBytesLE]
    constructor
    · omega
    · omega
  · simp [parse_payload, Command.commandTag, Command.to_bytes, ResponseRead.from_bytes,
      bytes2LE, bytes4LE, fromBytesLE]
    constructor
    · omega
    · omega
  · simp [parse_payload, Command.commandTag, Command.to_bytes, ResponseWrite.from_bytes,
      bytes2LE, fromBytesLE]
    omega
  · simp only [parse_payload, Command.commandTag, Command.to_bytes]
    norm_num
    have hlen : ((ps.map fun p => bytes2LE p.1 ++ bytes2LE p.2).flatten).length % 4 = 0 := by
      rw [encodeData_length]
      omega
    rw [ResponseData.from_bytes, if_neg (by simp only [ne_eq, not_not]; exact hlen),
      responseDataLoop_encode ps [] hb (by simp) hnd]
    simp
  · simp [parse_payload, Command.commandTag, Command.to_bytes, ResponseRmu.from_bytes]
  · simp only [List.mem_cons, List.not_mem_nil, or_false, not_or] at h
    obtain ⟨h1, h2, h3, h4, h5, h6, h7⟩ := h
    simp [parse_payload, Command.commandTag, Command.to_bytes, h1, h2, h3, h4, h5, h6, h7]

/-- C1 witness: the amended round trip at representative values, including
register `0` and `0xFFFF` and value `0` and `0xFFFFFFFF`. -/
theorem c1_roundtrip_amended_witness :
    parse_payload (Command.requestRead 0xFFFF).commandTag
      (Command.requestRead 0xFFFF).to_bytes = .ok (.requestRead 0xFFFF) ∧
    parse_payload (Command.requestWrite 0 0xFFFFFFFF).commandTag
      (Command.requestWrite 0 0xFFFFFFFF).to_bytes = .ok (.requestWrite 0 0xFFFFFFFF) ∧
    parse_payload (Command.responseRead 0xFFFF 0).commandTag
      (Command.responseRead 0xFFFF 0).to_bytes = .ok (.responseRead 0xFFFF 0) ∧
    parse_payload (Command.responseWrite 0).commandTag
      (Command.responseWrite 0).to_bytes = .ok (.responseWrite 0) ∧
    parse_payload (Command.responseData [(0, 1), (2, 3)]).commandTag
      (Command.responseData [(0, 1), (2, 3)]).to_bytes =
        .ok (.responseData [(0, 1), (2, 3)]) ∧
    parse_payload (Command.unknown 0x60 [9]).commandTag
      (Command.unknown 0x60 [9]).to_bytes = .ok (.unknown 0x60 [9]) :=
  ⟨c1_roundtrip_amended.1 0xFFFF (by decide),
   c1_roundtrip_amended.2.1 0 0xFFFFFFFF (by decide) (by decide),
   c1_roundtrip_amended.2.2.1 0xFFFF 0 (by decide) (by decide),
   c1_roundtrip_amended.2.2.2.1 0 (by decide),
   c1_roundtrip_amended.2.2.2.2.1 [(0, 1), (2, 3)] (by decide) (by decide),
   c1_roundtrip_amended.2.2.2.2.2.2 0x60 [9] (by decide)⟩

/-- C8: a read-request (0x69) or write-request (0x6B) frame with a
zero-length payload decodes to the corresponding null-request variant
without error — shown for every well-formed zero-payload master frame (any
address other than the stuffing key `0x5C`) and for the literal frame
`5C 00 20 6B 00 4B`, which parses to a Master message with address `0x20`
carrying the null write-request. -/
theorem c8_null_request :
    (∀ addr : Nat, addr ≠ 0x5C →
      parse (0x5C :: 0x00 :: addr :: 0x69 :: 0x00 ::
          [calculate_checksum [addr, 0x69, 0x00] 0x5C]) =
        .ok (.master addr .requestReadNull)) ∧
    (∀ addr : Nat, addr ≠ 0x5C →
      parse (0x5C :: 0x00 :: addr :: 0x6B :: 0x00 ::
          [calculate_checksum [addr, 0x6B, 0x00] 0x5C]) =
        .ok (.master addr .requestWriteNull)) ∧
    parse_payload 0x69 [] = .ok .requestReadNull ∧
    parse_payload 0x6B [] = .ok .requestWriteNull ∧
    parse [0x5C, 0x00, 0x20, 0x6B, 0x00, 0x4B] = .ok (.master 0x20 .requestWriteNull) := by
  refine ⟨fun addr h => ?_, fun addr h => ?_, by decide, by decide, by decide⟩
  · have hchk : calculate_checksum [addr, 0x69, 0x00] 0x5C ≠ 0x5C :=
      calculate_checksum_ne_5C _
    have hmem : ∀ x ∈ (0x00 :: addr :: 0x69 :: 0x00 ::
        [calculate_checksum [addr, 0x69, 0x00] 0x5C]), x ≠ (0x5C : Nat) := by
      intro x hx
      simp only [List.mem_cons, List.not_mem_nil, or_false] at hx
      rcases hx with rfl | rfl | rfl | rfl | rfl
      · decide
      · exact h
      · decide
      · decide
      · exact hchk
    have hu : unescape (0x5C :: 0x00 :: addr :: 0x69 :: 0x00 ::
        [calculate_checksum [addr, 0x69, 0x00] 0x5C]) 0x5C =
        0x5C :: 0x00 :: addr :: 0x69 :: 0x00 ::
          [calculate_checksum [addr, 0x69, 0x00] 0x5C] := by
      show (0x5C : Nat) :: unescapeBody 0x5C (0x00 :: addr :: 0x69 :: 0x00 ::
          [calculate_checksum [addr, 0x69, 0x00] 0x5C]) = _
      rw [unescapeBody_of_no_key 0x5C _ hmem]
    simp only [parse, hu]
    norm_num [parse_payload, Except.map]
  · have hchk : calculate_checksum [addr, 0x6B, 0x00] 0x5C ≠ 0x5C :=
      calculate_checksum_ne_5C _
    have hmem : ∀ x ∈ (0x00 :: addr :: 0x6B :: 0x00 ::
        [calculate_checksum [addr, 0x6B, 0x00] 0x5C]), x ≠ (0x5C : Nat) := by
      intro x hx
      simp only [List.mem_cons, List.not_mem_nil, or_false] at hx
      rcases hx with rfl | rfl | rfl | rfl | rfl
      · decide
      · exact h
      · decide
      · decide
      · exact hchk
    have hu : unescape (0x5C :: 0x00 :: addr :: 0x6B :: 0x00 ::
        [calculate_checksum [addr, 0x6B, 0x00] 0x5C]) 0x5C =
        0x5C :: 0x00 :: addr :: 0x6B :: 0x00 ::
          [calculate_checksum [addr, 0x6B, 0x00] 0x5C] := by
      show (0x5C : Nat) :: unescapeBody 0x5C (0x00 :: addr :: 0x6B :: 0x00 ::
          [calculate_checksum [addr, 0x6B, 0x00] 0x5C]) = _
      rw [unescapeBody_of_no_key 0x5C _ hmem]
    simp only [parse, hu]
    norm_num [parse_payload, Except.map]

/-- C8 witness: the general zero-payload conjuncts applied at address
`0x20` (the checksum bytes evaluate to `0x49` and `0x4B`). -/
theorem c8_null_request_witness :
    parse (0x5C :: 0x00 :: 0x20 :: 0x69 :: 0x00 ::
        [calculate_checksum [0x20, 0x69, 0x00] 0x5C]) =
      .ok (.master 0x20 .requestReadNull) ∧
    parse (0x5C :: 0x00 :: 0x20 :: 0x6B :: 0x00 ::
        [calculate_checksum [0x20, 0x6B, 0x00] 0x5C]) =
      .ok (.master 0x20 .requestWriteNull) :=
  ⟨c8_null_request.1 0x20 (by decide), c8_null_request.2.1 0x20 (by decide)⟩

/-- C3 (amended): `MessageSlave.to_bytes` applies no byte-stuffing; it emits
start byte, command byte, length, payload and checksum verbatim.
`parse(MessageSlave(c).to_bytes())` returns a slave message equal to the
original for every command that round-trips at payload level and whose
frame contains no `0xC0` byte after the first (command byte, length byte
and payload all different from `0xC0`; the checksum byte can never be
`0xC0` thanks to the nibble-swap substitution).  The literal frame
`C0 69 02 34 12 8D` parses to a slave read-request for register `0x1234`
and re-encodes to those identical bytes. -/
theorem c3_slave_roundtrip_amended :
    (∀ c : Command,
      parse_payload c.commandTag c.to_bytes = .ok c →
      c.commandTag ≠ 0xC0 →
      c.to_bytes.length ≠ 0xC0 →
      (∀ b ∈ c.to_bytes, b ≠ 0xC0) →
      parse (slaveToBytes c) = .ok (.slave c)) ∧
    parse [0xC0, 0x69, 0x02, 0x34, 0x12, 0x8D] = .ok (.slave (.requestRead 0x1234)) ∧
    slaveToBytes (.requestRead 0x1234) = [0xC0, 0x69, 0x02, 0x34, 0x12, 0x8D] := by
  refine ⟨fun c hpp htag hlen hb => ?_, by decide, by decide⟩
  have hsl : slaveToBytes c = 0xC0 :: c.commandTag :: c.to_bytes.length ::
      (c.to_bytes ++ [calculate_checksum
        (0xC0 :: c.commandTag :: c.to_bytes.length :: c.to_bytes) 0xC0]) := by
    simp [slaveToBytes]
  rw [hsl]
  generalize c.commandTag = tag at hpp htag
  generalize hg : c.to_bytes = payload at hpp hlen hb ⊢
  have hchk : calculate_checksum (0xC0 :: tag :: payload.length :: payload) 0xC0 ≠ 0xC0 :=
    calculate_checksum_ne_C0 _
  have hmem : ∀ x ∈ (tag :: payload.length :: (payload ++
      [calculate_checksum (0xC0 :: tag :: payload.length :: payload) 0xC0])),
      x ≠ (0xC0 : Nat) := by
    intro x hx
    simp only [List.mem_cons, List.mem_append, List.mem_singleton,
      List.not_mem_nil, or_false] at hx
    rcases hx with rfl | rfl | hx | rfl
    · exact htag
    · exact hlen
    · exact hb x hx
    · exact hchk
  have hu : unescape (0xC0 :: tag :: payload.length :: (payload ++
      [calculate_checksum (0xC0 :: tag :: payload.length :: payload) 0xC0])) 0xC0 =
      0xC0 :: tag :: payload.length :: (payload ++
        [calculate_checksum (0xC0 :: tag :: payload.length :: payload) 0xC0]) := by
    show (0xC0 : Nat) :: unescapeBody 0xC0 (tag :: payload.length :: (payload ++
        [calculate_checksum (0xC0 :: tag :: payload.length :: payload) 0xC0])) = _
    rw [unescapeBody_of_no_key 0xC0 _ hmem]
  have htake : (0xC0 :: tag :: payload.length :: (payload ++
      [calculate_checksum (0xC0 :: tag :: payload.length :: payload) 0xC0])).take
      (3 + payload.length) = 0xC0 :: tag :: payload.length :: payload := by
    have e : 3 + payload.length = payload.length + 1 + 1 + 1 := by omega
    rw [e, List.take_succ_cons, List.take_succ_cons, List.take_succ_cons, List.take_left]
  have hdrop : (((0xC0 :: tag :: payload.length :: (payload ++
      [calculate_checksum (0xC0 :: tag :: payload.length :: payload) 0xC0])).drop 3).take
      payload.length) = payload := by
    simp [List.take_left]
  simp only [parse, hu]
  norm_num [htake, hdrop, hpp, Except.map]
  rw [if_neg (show ¬(payload.length + 1 + 1 + 1 + 1 < 3) by omega)]
  have hidx2 : ((0xC0 : Nat) :: tag :: payload.length :: (payload ++
      [calculate_checksum (0xC0 :: tag :: payload.length :: payload)
        0xC0]))[3 + payload.length]?.getD 0 =
      calculate_checksum (0xC0 :: tag :: payload.length :: payload) 0xC0 := by
    rw [← List.getD_eq_getElem?_getD]
    have e : 3 + payload.length = payload.length + 1 + 1 + 1 := by omega
    rw [e, List.getD_cons_succ, List.getD_cons_succ, List.getD_cons_succ, getD_concat_length]
  rw [hidx2, if_pos rfl]

/-- C3 witness: the general round trip applied to the slave read-request
for register `0x1234` (frame `C0 69 02 34 12 8D`, no stuffed byte). -/
theorem c3_slave_roundtrip_amended_witness :
    parse (slaveToBytes (.requestRead 0x1234)) = .ok (.slave (.requestRead 0x1234)) :=
  c3_slave_roundtrip_amended.1 (.requestRead 0x1234) (by decide) (by decide) (by decide)
    (by decide)

theorem parse_master_start (l : List Nat) (a : Nat) (c : Command)
    (h : parse l = .ok (.master a c)) : ∃ rest, l = 0x5C :: rest := by
  match l with
  | [] => exact absurd h (by simp [parse])
  | b0 :: rest =>
    by_cases hb0 : b0 = 0x5C
    · exact ⟨rest, by rw [hb0]⟩
    · exfalso
      simp only [parse, if_neg hb0] at h
      by_cases hc : b0 = 0xC0
      · rw [if_pos hc] at h
        split at h
        · exact Except.noConfusion h
        · split at h
          · exact Except.noConfusion h
          · split at h
            · exact Except.noConfusion h
            · cases hpx : parse_payload ((unescape (b0 :: rest) 0xC0).getD 1 0)
                  (((unescape (b0 :: rest) 0xC0).drop 3).take
                    ((unescape (b0 :: rest) 0xC0).getD 2 0)) with
              | ok x => rw [hpx] at h; simp [Except.map] at h
              | error e => rw [hpx] at h; simp [Except.map] at h
      · rw [if_neg hc] at h
        by_cases h6 : b0 = 0x06
        · rw [if_pos h6] at h
          simp at h
        · rw [if_neg h6] at h
          by_cases h15 : b0 = 0x15
          · rw [if_pos h15] at h
            simp at h
          · rw [if_neg h15] at h
            simp at h

theorem parse_slave_start (l : List Nat) (c : Command)
    (h : parse l = .ok (.slave c)) : ∃ rest, l = 0xC0 :: rest := by
  match l with
  | [] => exact absurd h (by simp [parse])
  | b0 :: rest =>
    by_cases hc : b0 = 0xC0
    · exact ⟨rest, by rw [hc]⟩
    · exfalso
      by_cases hb0 : b0 = 0x5C
      · simp only [parse, if_pos hb0] at h
        split at h
        · exact Except.noConfusion h
        · split at h
          · exact Except.noConfusion h
          · split at h
            · exact Except.noConfusion h
            · cases hpx : parse_payload ((unescape (b0 :: rest) 0x5C).getD 3 0)
                  (((unescape (b0 :: rest) 0x5C).drop 5).take
                    ((unescape (b0 :: rest) 0x5C).getD 4 0)) with
              | ok x => rw [hpx] at h; simp [Except.map] at h
              | error e => rw [hpx] at h; simp [Except.map] at h
      · simp only [parse, if_neg hb0, if_neg hc] at h
        by_cases h6 : b0 = 0x06
        · rw [if_pos h6] at h
          simp at h
        · rw [if_neg h6] at h
          by_cases h15 : b0 = 0x15
          · rw [if_pos h15] at h
            simp at h
          · rw [if_neg h15] at h
            simp at h

/-- C10: trailing bytes after a successfully parsed frame are ignored: the
length check only requires the unescaped buffer to be at least
`length + 6` bytes (master) or `length + 4` bytes (slave), and no byte
after the checksum position is read, so appending any extra bytes to a
datagram that parses as a Master or Slave message yields the same
message. -/
theorem c10_trailing_ignored :
    (∀ (data extra : List Nat) (a : Nat) (c : Command),
      parse data = .ok (.master a c) → parse (data ++ extra) = .ok (.master a c)) ∧
    (∀ (data extra : List Nat) (c : Command),
      parse data = .ok (.slave c) → parse (data ++ extra) = .ok (.slave c)) := by
  constructor
  · intro data extra a c h
    obtain ⟨rest, rfl⟩ := parse_master_start data a c h
    rw [List.cons_append]
    obtain ⟨t, ht⟩ := unescape_append 0x5C rest extra 0x5C
    rw [List.cons_append] at ht
    simp only [parse] at h ⊢
    norm_num at h ⊢
    rw [ht]
    generalize hd : unescape ((0x5C : Nat) :: rest) 0x5C = d at h ht ⊢
    split at h
    · exact Except.noConfusion h
    next h1 =>
      split at h
      · exact Except.noConfusion h
      next h2 =>
        split at h
        next h3 =>
          have hL : d[4]?.getD 0 + 6 ≤ d.length := by omega
          have h5 : 5 ≤ d.length := by omega
          have e4 : (d ++ t)[4]?.getD 0 = d[4]?.getD 0 := by
            rw [List.getElem?_append_left (show (4 : Nat) < d.length by omega)]
          have e0 : (d ++ t)[0]?.getD 0 = d[0]?.getD 0 := by
            rw [List.getElem?_append_left (show (0 : Nat) < d.length by omega)]
          have e2 : (d ++ t)[2]?.getD 0 = d[2]?.getD 0 := by
            rw [List.getElem?_append_left (show (2 : Nat) < d.length by omega)]
          have e3 : (d ++ t)[3]?.getD 0 = d[3]?.getD 0 := by
            rw [List.getElem?_append_left (show (3 : Nat) < d.length by omega)]
          have eS : (d ++ t)[5 + d[4]?.getD 0]?.getD 0 = d[5 + d[4]?.getD 0]?.getD 0 := by
            rw [List.getElem?_append_left (show 5 + d[4]?.getD 0 < d.length by omega)]
          have eD2 : (d ++ t).drop 2 = d.drop 2 ++ t :=
            List.drop_append_of_le_length (by omega)
          have eD5 : (d ++ t).drop 5 = d.drop 5 ++ t :=
            List.drop_append_of_le_length (by omega)
          have eT3 : (d.drop 2 ++ t).take (3 + d[4]?.getD 0) =
              (d.drop 2).take (3 + d[4]?.getD 0) :=
            List.take_append_of_le_length (by simp [List.length_drop]; omega)
          have eTL : (d.drop 5 ++ t).take (d[4]?.getD 0) =
              (d.drop 5).take (d[4]?.getD 0) :=
            List.take_append_of_le_length (by simp [List.length_drop]; omega)
          rw [if_neg (show ¬((d ++ t).length < 5) by simp [List.length_append]; omega), e4,
            if_neg (show ¬((d ++ t).length < d[4]?.getD 0 + 6) by
              simp [List.length_append]; omega),
            eD2, eT3, e0, eS, if_pos h3, e2, e3, eD5, eTL]
          exact h
        next h3 =>
          exact Except.noConfusion h
  · intro data extra c h
    obtain ⟨rest, rfl⟩ := parse_slave_start data c h
    rw [List.cons_append]
    obtain ⟨t, ht⟩ := unescape_append 0xC0 rest extra 0xC0
    rw [List.cons_append] at ht
    simp only [parse] at h ⊢
    norm_num at h ⊢
    rw [ht]
    generalize hd : unescape ((0xC0 : Nat) :: rest) 0xC0 = d at h ht ⊢
    split at h
    · exact Except.noConfusion h
    next h1 =>
      split at h
      · exact Except.noConfusion h
      next h2 =>
        split at h
        next h3 =>
          have hL : d[2]?.getD 0 + 4 ≤ d.length := by omega
          have h3le : 3 ≤ d.length := by omega
          have e2 : (d ++ t)[2]?.getD 0 = d[2]?.getD 0 := by
            rw [List.getElem?_append_left (show (2 : Nat) < d.length by omega)]
          have e0 : (d ++ t)[0]?.getD 0 = d[0]?.getD 0 := by
            rw [List.getElem?_append_left (show (0 : Nat) < d.length by omega)]
          have e1 : (d ++ t)[1]?.getD 0 = d[1]?.getD 0 := by
            rw [List.getElem?_append_left (show (1 : Nat) < d.length by omega)]
          have eS : (d ++ t)[3 + d[2]?.getD 0]?.getD 0 = d[3 + d[2]?.getD 0]?.getD 0 := by
            rw [List.getElem?_append_left (show 3 + d[2]?.getD 0 < d.length by omega)]
          have eD3 : (d ++ t).drop 3 = d.drop 3 ++ t :=
            List.drop_append_of_le_length (by omega)
          have eT3 : (d ++ t).take (3 + d[2]?.getD 0) = d.take (3 + d[2]?.getD 0) :=
            List.take_append_of_le_length (by omega)
          have eTL : (d.drop 3 ++ t).take (d[2]?.getD 0) =
              (d.drop 3).take (d[2]?.getD 0) :=
            List.take_append_of_le_length (by simp [List.length_drop]; omega)
          rw [if_neg (show ¬((d ++ t).length < 3) by simp [List.length_append]; omega), e2,
            if_neg (show ¬((d ++ t).length < d[2]?.getD 0 + 4) by
              simp [List.length_append]; omega),
            eT3, e0, eS, if_pos h3, e1, eD3, eTL]
          exact h
        next h3 =>
          exact Except.noConfusion h

/-- C10 witness: the repository's own "buggy server responding with extra
byte" datagram — appending the stray byte `A8` to the frame
`5C 00 20 6B 00 4B` parses to the same Master message; likewise a slave
frame with a trailing byte. -/
theorem c10_trailing_ignored_witness :
    parse [0x5C, 0x00, 0x20, 0x6B, 0x00, 0x4B, 0xA8] =
      .ok (.master 0x20 .requestWriteNull) ∧
    parse [0xC0, 0x69, 0x02, 0x34, 0x12, 0x8D, 0x00] =
      .ok (.slave (.requestRead 0x1234)) :=
  ⟨c10_trailing_ignored.1 [0x5C, 0x00, 0x20, 0x6B, 0x00, 0x4B] [0xA8] 0x20
      .requestWriteNull (by decide),
   c10_trailing_ignored.2 [0xC0, 0x69, 0x02, 0x34, 0x12, 0x8D] [0x00]
      (.requestRead 0x1234) (by decide)⟩


theorem parse_payload_err (cmd : Nat) (payload : List Nat) (e : PyErr)
    (h : parse_payload cmd payload = .error e) :
    (∃ k, e = PyErr.parseError k) ∨ e = .unicodeDecodeError := by
  simp only [parse_payload, ResponseRead.from_bytes, ResponseWrite.from_bytes,
    ResponseData.from_bytes, ResponseRmu.from_bytes, RequestRead.from_bytes,
    RequestWrite.from_bytes, ResponseProduct.from_bytes] at h
  repeat' split at h
  all_goals
    first
      | exact Except.noConfusion h
      | (injection h with h2; exact Or.inl ⟨_, h2.symm⟩)
      | (injection h with h2; exact Or.inr h2.symm)

theorem parse_err_class (data : List Nat) (e : PyErr) (h : parse data = .error e) :
    (∃ k, e = PyErr.parseError k) ∨ e = .indexError ∨ e = .unicodeDecodeError := by
  match data with
  | [] =>
    rw [parse] at h
    injection h with h2
    exact Or.inl ⟨_, h2.symm⟩
  | b0 :: rest =>
    simp only [parse] at h
    by_cases hb0 : b0 = 0x5C
    · rw [if_pos hb0] at h
      split at h
      · injection h with h2
        exact Or.inr (Or.inl h2.symm)
      · split at h
        · injection h with h2
          exact Or.inl ⟨_, h2.symm⟩
        · split at h
          · injection h with h2
            exact Or.inl ⟨_, h2.symm⟩
          · cases hpx : parse_payload ((unescape (b0 :: rest) 0x5C).getD 3 0)
                (((unescape (b0 :: rest) 0x5C).drop 5).take
                  ((unescape (b0 :: rest) 0x5C).getD 4 0)) with
            | ok x => rw [hpx] at h; simp [Except.map] at h
            | error e2 =>
              rw [hpx] at h
              simp only [Except.map] at h
              injection h with h2
              subst h2
              rcases parse_payload_err _ _ _ hpx with h3 | h3
              · exact Or.inl h3
              · exact Or.inr (Or.inr h3)
    · rw [if_neg hb0] at h
      by_cases hc0 : b0 = 0xC0
      · rw [if_pos hc0] at h
        split at h
        · injection h with h2
          exact Or.inr (Or.inl h2.symm)
        · split at h
          · injection h with h2
            exact Or.inl ⟨_, h2.symm⟩
          · split at h
            · injection h with h2
              exact Or.inl ⟨_, h2.symm⟩
            · cases hpx : parse_payload ((unescape (b0 :: rest) 0xC0).getD 1 0)
                  (((unescape (b0 :: rest) 0xC0).drop 3).take
                    ((unescape (b0 :: rest) 0xC0).getD 2 0)) with
              | ok x => rw [hpx] at h; simp [Except.map] at h
              | error e2 =>
                rw [hpx] at h
                simp only [Except.map] at h
                injection h with h2
                subst h2
                rcases parse_payload_err _ _ _ hpx with h3 | h3
                · exact Or.inl h3
                · exact Or.inr (Or.inr h3)
      · rw [if_neg hc0] at h
        by_cases h6 : b0 = 0x06
        · rw [if_pos h6] at h
          exact Except.noConfusion h
        · rw [if_neg h6] at h
          by_cases h15 : b0 = 0x15
          · rw [if_pos h15] at h
            exact Except.noConfusion h
          · rw [if_neg h15] at h
            exact Except.noConfusion h

/-- C6 (amended): `parse` raises only `ParseError` apart from two carve-outs
the code contains: a master frame whose unescaped buffer is shorter than 5
bytes (or a slave frame shorter than 3) raises `IndexError`, and a
well-formed product-info (0x6D) frame whose product field holds a non-ASCII
byte raises `UnicodeDecodeError`.  The specific cases hold as claimed:
empty input raises the empty-packet `ParseError`; a master or slave frame
whose declared length exceeds the available bytes raises the length
`ParseError`; a checksum mismatch raises the checksum `ParseError` carrying
computed and expected values; and an unrecognized command kind decodes to
the Unknown command rather than raising. -/
theorem c6_error_policy_amended :
    (parse [] = .error (.parseError .emptyPacket)) ∧
    (∀ (data : List Nat) (e : PyErr), parse data = .error e →
      (∃ k, e = PyErr.parseError k) ∨ e = .indexError ∨ e = .unicodeDecodeError) ∧
    (∀ rest d : List Nat, unescape (0x5C :: rest) 0x5C = d →
      ¬(d.length < 5) → d.length < d.getD 4 0 + 6 →
      parse (0x5C :: rest) = .error (.parseError (.invalidLength d))) ∧
    (∀ rest d : List Nat, unescape (0xC0 :: rest) 0xC0 = d →
      ¬(d.length < 3) → d.length < d.getD 2 0 + 4 →
      parse (0xC0 :: rest) = .error (.parseError (.invalidLength d))) ∧
    (∀ rest d : List Nat, unescape (0x5C :: rest) 0x5C = d →
      ¬(d.length < 5) → ¬(d.length < d.getD 4 0 + 6) →
      calculate_checksum ((d.drop 2).take (3 + d.getD 4 0)) (d.getD 0 0) ≠
        d.getD (5 + d.getD 4 0) 0 →
      parse (0x5C :: rest) = .error (.parseError (.invalidChecksum
        (calculate_checksum ((d.drop 2).take (3 + d.getD 4 0)) (d.getD 0 0))
        (d.getD (5 + d.getD 4 0) 0)))) ∧
    (∀ rest d : List Nat, unescape (0xC0 :: rest) 0xC0 = d →
      ¬(d.length < 3) → ¬(d.length < d.getD 2 0 + 4) →
      calculate_checksum (d.take (3 + d.getD 2 0)) (d.getD 0 0) ≠
        d.getD (3 + d.getD 2 0) 0 →
      parse (0xC0 :: rest) = .error (.parseError (.invalidChecksum
        (calculate_checksum (d.take (3 + d.getD 2 0)) (d.getD 0 0))
        (d.getD (3 + d.getD 2 0) 0)))) ∧
    (∀ (cmd : Nat) (payload : List Nat),
      cmd ∉ ([0x6A, 0x6C, 0x68, 0x62, 0x69, 0x6B, 0x6D] : List Nat) →
      parse_payload cmd payload = .ok (.unknown cmd payload)) := by
  refine ⟨by decide, parse_err_class, fun rest d hdef hge hlt => ?_,
    fun rest d hdef hge hlt => ?_, fun rest d hdef hge hge2 hne => ?_,
    fun rest d hdef hge hge2 hne => ?_, fun cmd payload h => ?_⟩
  · simp only [parse]
    norm_num
    rw [List.getD_eq_getElem?_getD] at hlt
    rw [hdef, if_neg hge, if_pos hlt]
  · simp only [parse]
    norm_num
    rw [List.getD_eq_getElem?_getD] at hlt
    rw [hdef, if_neg hge, if_pos hlt]
  · simp only [parse]
    norm_num
    simp only [List.getD_eq_getElem?_getD] at hge2 hne ⊢
    rw [hdef, if_neg hge, if_neg hge2, if_neg hne]
  · simp only [parse]
    norm_num
    simp only [List.getD_eq_getElem?_getD] at hge2 hne ⊢
    rw [hdef, if_neg hge, if_neg hge2, if_neg hne]
  · simp only [List.mem_cons, List.not_mem_nil, or_false, not_or] at h
    obtain ⟨h1, h2, h3, h4, h5, h6, h7⟩ := h
    simp [parse_payload, h1, h2, h3, h4, h5, h6, h7]

/-- C6 witness: the amended error policy at concrete inputs — the
classification applied to the `IndexError` input `5C`, a declared length
exceeding the buffer, an altered checksum byte, and an unrecognized kind. -/
theorem c6_error_policy_amended_witness :
    ((∃ k, PyErr.indexError = PyErr.parseError k) ∨ PyErr.indexError = .indexError ∨
      PyErr.indexError = .unicodeDecodeError) ∧
    parse [0x5C, 0x00, 0x00, 0x00, 0x05] =
      .error (.parseError (.invalidLength [0x5C, 0x00, 0x00, 0x00, 0x05])) ∧
    parse [0x5C, 0x00, 0x20, 0x6B, 0x00, 0x00] =
      .error (.parseError (.invalidChecksum 0x4B 0x00)) ∧
    parse_payload 0x60 [] = .ok (.unknown 0x60 []) :=
  ⟨c6_error_policy_amended.2.1 [0x5C] PyErr.indexError (by decide),
   c6_error_policy_amended.2.2.1 [0x00, 0x00, 0x00, 0x05]
     [0x5C, 0x00, 0x00, 0x00, 0x05] (by decide) (by decide) (by decide),
   c6_error_policy_amended.2.2.2.2.1 [0x00, 0x20, 0x6B, 0x00, 0x00]
     [0x5C, 0x00, 0x20, 0x6B, 0x00, 0x00] (by decide) (by decide) (by decide) (by decide),
   c6_error_policy_amended.2.2.2.2.2.2 0x60 [] (by decide)⟩
